import Mathlib

/-!
Verification development for the vscode-markdown-editor extension.

The repository implements one controller in three near-duplicate revisions
(src/unnamed/part_000 and two revisions concatenated in src/src/extension.ts).
The definitions below are shallow embeddings of the functions named in their
doc comments: pure data transformations are Lean functions, stateful handler
code becomes explicit state passing over small state records, Node timers
become explicit optional absolute fire times, and the single-threaded event
loop becomes a fold over a list of timed events in which a due timer fires
before the next event is handled.
-/

set_option maxRecDepth 8192

/-! ### Path arithmetic (Node `path`, POSIX form)

The extension calls NodePath.dirname, basename, extname, join, resolve and
relative, plus JavaScript `String.prototype.replace` with a plain-string
pattern (which replaces only the first occurrence).  Paths are modelled as
slash-separated strings; the operations work on the underlying character
lists with structural recursion so that concrete instances evaluate. -/

/-- Split a character list at a separator character; auxiliary accumulator
form. -/
def splitOnCharAux (sep : Char) : List Char → List Char → List (List Char)
  | [], acc => [acc.reverse]
  | c :: cs, acc =>
    if c = sep then acc.reverse :: splitOnCharAux sep cs []
    else splitOnCharAux sep cs (c :: acc)

/-- Split a character list at a separator character. -/
def splitOnChar (sep : Char) (l : List Char) : List (List Char) :=
  splitOnCharAux sep l []

/-- Join character-list segments with a separator list. -/
def intercalateChars (sep : List Char) : List (List Char) → List Char
  | [] => []
  | [x] => x
  | x :: xs => x ++ sep ++ intercalateChars sep xs

/-- The slash-separated segments of a path string. -/
def segsOf (s : String) : List (List Char) :=
  splitOnChar '/' s.data

/-- Drop empty and dot segments and resolve `..` segments, as Node does when
normalizing an absolute path (a `..` above the root is dropped). -/
def normalizeSegs (segs : List (List Char)) : List (List Char) :=
  segs.foldl
    (fun acc seg =>
      if seg = [] ∨ seg = ['.'] then acc
      else if seg = ['.', '.'] then acc.dropLast
      else acc ++ [seg])
    []

/-- NodePath.dirname on an absolute POSIX path. -/
def pathDirname (s : String) : String :=
  let r := intercalateChars ['/'] (segsOf s).dropLast
  if r = [] then "/" else ⟨r⟩

/-- NodePath.resolve base p for an absolute base: an absolute p wins,
otherwise p is resolved against base; the result is normalized. -/
def pathResolve (base p : String) : String :=
  let startsSlash : Bool := match p.data with | '/' :: _ => true | _ => false
  let segs := if startsSlash then segsOf p else segsOf base ++ segsOf p
  ⟨'/' :: intercalateChars ['/'] (normalizeSegs segs)⟩

/-- NodePath.join of two path pieces, normalized, keeping absoluteness of the
first piece. -/
def pathJoin (a b : String) : String :=
  let pre : List Char := match a.data with | '/' :: _ => ['/'] | _ => []
  ⟨pre ++ intercalateChars ['/'] (normalizeSegs (segsOf a ++ segsOf b))⟩

/-- Length of the common segment prefix of two segment lists. -/
def commonPrefixLen : List (List Char) → List (List Char) → Nat
  | a :: as, b :: bs => if a = b then 1 + commonPrefixLen as bs else 0
  | _, _ => 0

/-- NodePath.relative: path from `fromP` to `toP`, as `..` steps out of the
uncommon part of `fromP` followed by the uncommon part of `toP`. -/
def pathRelative (fromP toP : String) : String :=
  let f := normalizeSegs (segsOf fromP)
  let t := normalizeSegs (segsOf toP)
  let com := commonPrefixLen f t
  ⟨intercalateChars ['/'] (List.replicate (f.length - com) ['.', '.'] ++ t.drop com)⟩

/-- NodePath.extname: the dotted extension of the final segment, empty for a
bare name or a leading-dot-only name. -/
def pathExtname (s : String) : String :=
  let base := (segsOf s).getLastD s.data
  match splitOnChar '.' base with
  | [] => ""
  | [_] => ""
  | p :: rest => if p = [] ∧ rest.length = 1 then "" else ⟨'.' :: rest.getLastD []⟩

/-- NodePath.basename with an extension argument: the final segment, with the
extension stripped when it is a proper suffix. -/
def pathBasename (s ext : String) : String :=
  let base := (segsOf s).getLastD s.data
  if ext ≠ "" ∧ ext.data.isSuffixOf base ∧ base ≠ ext.data then
    ⟨base.take (base.length - ext.length)⟩
  else ⟨base⟩

/-- Whether the first list is a prefix of the second, by character. -/
def isPrefixL : List Char → List Char → Bool
  | [], _ => true
  | _ :: _, [] => false
  | p :: ps, c :: cs => p == c && isPrefixL ps cs

/-- Replace the first occurrence of `pat` by `rep`, scanning left to right. -/
def replaceFirstAux (pat rep : List Char) : List Char → List Char
  | [] => if pat.isEmpty then rep else []
  | c :: cs =>
    if isPrefixL pat (c :: cs) then rep ++ (c :: cs).drop pat.length
    else c :: replaceFirstAux pat rep cs

/-- JavaScript `s.replace(pat, rep)` with a plain-string pattern: only the
first occurrence is replaced. -/
def replaceFirst (s pat rep : String) : String :=
  ⟨replaceFirstAux pat.data rep.data s.data⟩

/-- JavaScript `s.replace(slashPattern, "/")` applied globally to the
single-character backslash pattern: every backslash becomes a forward
slash. -/
def slashify (s : String) : String :=
  ⟨s.data.map (fun c => if c = '\\' then '/' else c)⟩

/-- EditorPanel.getAssetsFolder (identical in all three revisions): the
configured imageSaveFolder template (falling back to "assets" when unset or
empty, as the JavaScript or-default does), with the four placeholders
substituted textually, resolved against the directory containing the
document. -/
def getAssetsFolder (docFsPath : String) (workspaceRoot : Option String)
    (imageSaveFolderCfg : Option String) : String :=
  let tmpl :=
    match imageSaveFolderCfg with
    | none => "assets"
    | some t => if t = "" then "assets" else t
  let t1 := replaceFirst tmpl "${projectRoot}" (workspaceRoot.getD "")
  let t2 := replaceFirst t1 "${file}" docFsPath
  let t3 := replaceFirst t2 "${fileBasenameNoExtension}"
      (pathBasename docFsPath (pathExtname docFsPath))
  let t4 := replaceFirst t3 "${dir}" (pathDirname docFsPath)
  pathResolve (pathDirname docFsPath) t4

/-- The relative reference sent back to the webview for one uploaded file in
the upload message handler: the saved asset path taken relative to the
document directory, with backslashes replaced by forward slashes. -/
def uploadedFileRef (docFsPath assetsFolder name : String) : String :=
  slashify (pathRelative (pathDirname docFsPath) (pathJoin assetsFolder name))

/-- C8: the asset resolver substitutes the recognized placeholders textually,
resolves the result against the directory containing the document, falls back
to the default folder name "assets" when the template is empty or unset, and
the reference returned to the webview after an upload is relative to the
document directory with separators normalized to forward slashes; in
particular template projectRoot/assets with upload a.png yields assets/a.png. -/
theorem assets_folder_resolution :
    (∀ (d : String) (r : Option String),
        getAssetsFolder d r none = pathResolve (pathDirname d) "assets"
          ∧ getAssetsFolder d r (some "") = pathResolve (pathDirname d) "assets")
    ∧ getAssetsFolder "/ws/doc.md" (some "/ws") (some "${projectRoot}/assets")
        = "/ws/assets"
    ∧ uploadedFileRef "/ws/doc.md" "/ws/assets" "a.png" = "assets/a.png"
    ∧ getAssetsFolder "/ws/doc.md" (some "/ws") (some "${dir}/media") = "/ws/media"
    ∧ getAssetsFolder "/ws/doc.md" (some "/ws") (some "${fileBasenameNoExtension}.img")
        = "/ws/doc.img"
    ∧ getAssetsFolder "/ws/doc.md" (some "/ws") (some "${file}.img") = "/ws/doc.md.img"
    ∧ getAssetsFolder "/ws/doc.md" (some "/ws") none = "/ws/assets"
    ∧ uploadedFileRef "/ws/d/doc.md" "/ws/pics" "a.png" = "../pics/a.png" := by
  refine ⟨fun d r => ⟨rfl, rfl⟩, ?_, ?_, ?_, ?_, ?_, ?_, ?_⟩ <;> decide

/-! ### SyncEngine: document-to-webview debounce and webview-to-document edits

Embedding of EditorPanel.setupDocumentChangeHandler and
EditorPanel.handleEditMessage from src/unnamed/part_000 (the revision the
registry delegates to).  The single debounce timer is an optional absolute
fire time, a push to the webview appends the document text read at fire time
to `pushes`, and a due timer fires before the next event of the single
JavaScript timeline is handled. -/

/-- A document-change notification delivered to the handler: its arrival
time, the full document text after the change, and whether the webview panel
is active (focused) at that moment. -/
structure ChangeEv where
  time : Nat
  content : String
  panelActive : Bool
deriving Repr, DecidableEq

/-- The state touched by the sync handlers: the bound document text, the
debounce timer (absolute fire time of the pending 300 ms timeout, if any),
the contents pushed to the webview so far, and the _documentEditPending
reentrancy flag. -/
structure SyncSt where
  doc : String
  timer : Option Nat
  pushes : List String
  editPending : Bool
deriving Repr, DecidableEq

/-- Execute the debounce timeout callback if its fire time has been reached:
push the current document text to the webview (the body of the 300 ms
setTimeout calls _update, which posts the document text) and clear the
timer. -/
def fireDebounce (t : Nat) (s : SyncSt) : SyncSt :=
  match s.timer with
  | some ft =>
    if ft ≤ t then { s with pushes := s.pushes ++ [s.doc], timer := none }
    else s
  | none => s

/-- EditorPanel.setupDocumentChangeHandler, part_000 lines 364-390: a due
timer fires first (single timeline); the event updates the document text;
then the handler returns early when _documentEditPending is set, returns
early when the panel is active, and otherwise clears any pending timeout and
schedules a new one 300 ms from now. -/
def onDidChangeTextDocument (e : ChangeEv) (s : SyncSt) : SyncSt :=
  let s1 := fireDebounce e.time s
  let s2 := { s1 with doc := e.content }
  if s2.editPending then s2
  else if e.panelActive then s2
  else { s2 with timer := some (e.time + 300) }

/-- Deliver a list of document-change notifications in order. -/
def runChanges (evs : List ChangeEv) (s : SyncSt) : SyncSt :=
  evs.foldl (fun st e => onDidChangeTextDocument e st) s

/-- Two consecutive events fall in the same debounce window: time moves
forward and the second event arrives before the timer set by the first
fires. -/
def debounceChain (a b : ChangeEv) : Prop :=
  a.time ≤ b.time ∧ b.time < a.time + 300

instance (a b : ChangeEv) : Decidable (debounceChain a b) :=
  inferInstanceAs (Decidable (_ ∧ _))

/-- The last event of a burst headed by `e`. -/
def lastEv (e : ChangeEv) (evs : List ChangeEv) : ChangeEv :=
  evs.getLastD e

/-- While every event of a burst arrives inside the window of its
predecessor, is inactive and sees no pending programmatic edit, each event
only rebases the timer and the document text; nothing is pushed. -/
theorem runChanges_debounced (evs : List ChangeEv) :
    ∀ (e : ChangeEv) (s : SyncSt),
      s.editPending = false →
      List.Chain debounceChain e evs →
      (∀ x ∈ evs, x.panelActive = false) →
      runChanges evs { s with timer := some (e.time + 300), doc := e.content }
        = { s with timer := some ((lastEv e evs).time + 300),
                   doc := (lastEv e evs).content } := by
  induction evs with
  | nil =>
    intro e s _ _ _
    simp [runChanges, lastEv]
  | cons f evs ih =>
    intro e s hep hchain hact
    cases hchain with
    | cons hR hchain' =>
      obtain ⟨hle, hlt⟩ := hR
      have hstep :
          onDidChangeTextDocument f { s with timer := some (e.time + 300), doc := e.content }
            = { s with timer := some (f.time + 300), doc := f.content } := by
        have hnf : f.panelActive = false := hact f (List.mem_cons_self f evs)
        simp [onDidChangeTextDocument, fireDebounce, hep, hnf, Nat.not_le.mpr hlt]
      have hact' : ∀ x ∈ evs, x.panelActive = false := fun x hx =>
        hact x (List.mem_cons_of_mem f hx)
      calc runChanges (f :: evs) { s with timer := some (e.time + 300), doc := e.content }
          = runChanges evs
              (onDidChangeTextDocument f
                { s with timer := some (e.time + 300), doc := e.content }) := rfl
        _ = runChanges evs { s with timer := some (f.time + 300), doc := f.content } := by
              rw [hstep]
        _ = { s with timer := some ((lastEv f evs).time + 300),
                     doc := (lastEv f evs).content } := ih f s hep hchain' hact'
        _ = { s with timer := some ((lastEv e (f :: evs)).time + 300),
                     doc := (lastEv e (f :: evs)).content } := by
              simp only [lastEv, List.getLastD_cons]

/-- C2: a burst of document-change events inside one debounce window while
the panel is unfocused produces exactly one push to the webview, carrying
only the final document content, once the window has elapsed; and a
document-change event arriving while the panel is focused schedules no push
at all. -/
theorem documentChange_debounce_single_push
    (e : ChangeEv) (evs : List ChangeEv) (s : SyncSt) (T : Nat)
    (hep : s.editPending = false) (ht : s.timer = none)
    (hchain : List.Chain debounceChain e evs)
    (hact : ∀ x ∈ e :: evs, x.panelActive = false)
    (hT : (lastEv e evs).time + 300 ≤ T) :
    (fireDebounce T (runChanges (e :: evs) s)).pushes
        = s.pushes ++ [(lastEv e evs).content]
    ∧ (fireDebounce T (runChanges (e :: evs) s)).timer = none
    ∧ ∀ (s2 : SyncSt) (ev : ChangeEv), s2.timer = none → ev.panelActive = true →
        onDidChangeTextDocument ev s2 = { s2 with doc := ev.content } := by
  have hae : e.panelActive = false := hact e (List.mem_cons_self e (evs))
  have hstep : onDidChangeTextDocument e s
      = { s with timer := some (e.time + 300), doc := e.content } := by
    simp [onDidChangeTextDocument, fireDebounce, hep, hae, ht]
  have hrun : runChanges (e :: evs) s
      = { s with timer := some ((lastEv e evs).time + 300),
                 doc := (lastEv e evs).content } := by
    calc runChanges (e :: evs) s
        = runChanges evs (onDidChangeTextDocument e s) := rfl
      _ = runChanges evs { s with timer := some (e.time + 300), doc := e.content } := by
            rw [hstep]
      _ = _ := runChanges_debounced evs e s hep hchain
            (fun x hx => hact x (List.mem_cons_of_mem e hx))
  refine ⟨?_, ?_, ?_⟩
  · rw [hrun]; simp [fireDebounce, hT]
  · rw [hrun]; simp [fireDebounce, hT]
  · intro s2 ev ht2 hav
    cases hp : s2.editPending <;>
      simp [onDidChangeTextDocument, fireDebounce, ht2, hav, hp]

/-- Concrete instance of C2: three rapid changes while unfocused yield the
single push "c", and a focused arrival on a quiet state schedules nothing. -/
theorem documentChange_debounce_single_push_wit :
    (((⟨"", none, [], false⟩ : SyncSt)).editPending = false
      ∧ (⟨"", none, [], false⟩ : SyncSt).timer = none
      ∧ List.Chain debounceChain ⟨0, "a", false⟩ [⟨100, "b", false⟩, ⟨200, "c", false⟩]
      ∧ (∀ x ∈ [(⟨0, "a", false⟩ : ChangeEv), ⟨100, "b", false⟩, ⟨200, "c", false⟩],
            x.panelActive = false)
      ∧ (lastEv ⟨0, "a", false⟩ [⟨100, "b", false⟩, ⟨200, "c", false⟩]).time + 300 ≤ 600)
    ∧ ((fireDebounce 600
          (runChanges [⟨0, "a", false⟩, ⟨100, "b", false⟩, ⟨200, "c", false⟩]
            ⟨"", none, [], false⟩)).pushes = [] ++ ["c"]
        ∧ (fireDebounce 600
            (runChanges [⟨0, "a", false⟩, ⟨100, "b", false⟩, ⟨200, "c", false⟩]
              ⟨"", none, [], false⟩)).timer = none
        ∧ ∀ (s2 : SyncSt) (ev : ChangeEv), s2.timer = none → ev.panelActive = true →
            onDidChangeTextDocument ev s2 = { s2 with doc := ev.content }) := by
  have hch : List.Chain debounceChain ⟨0, "a", false⟩
      [⟨100, "b", false⟩, ⟨200, "c", false⟩] :=
    List.Chain.cons (by decide) (List.Chain.cons (by decide) List.Chain.nil)
  constructor
  · exact ⟨rfl, rfl, hch, by decide, by decide⟩
  · have h := documentChange_debounce_single_push
      ⟨0, "a", false⟩ [⟨100, "b", false⟩, ⟨200, "c", false⟩]
      ⟨"", none, [], false⟩ 600 rfl rfl hch (by decide) (by decide)
    simpa [lastEv] using h

/-- EditorPanel.handleEditMessage, part_000 lines 393-419, for a
document-backed session: if the panel is not active the message is ignored;
otherwise the _documentEditPending flag is raised, the whole document range
is replaced by the message content (the edit may fail), the change
notification emitted by the host for a successful programmatic edit is
delivered while the flag is still held, and the flag is lowered again in the
finally block whether or not the edit succeeded. -/
def handleEditMessage (active : Bool) (content : String) (editSucceeds : Bool)
    (notifTime : Nat) (s : SyncSt) : SyncSt :=
  if !active then s
  else
    let s1 := { s with editPending := true }
    let s2 :=
      if editSucceeds then
        onDidChangeTextDocument ⟨notifTime, content, active⟩ { s1 with doc := content }
      else s1
    { s2 with editPending := false }

/-- C3: after pushing content C to the webview, an edit message carrying C
from a focused panel leaves the document text equal to C, and the change
notification caused by that programmatic edit schedules no push back to the
webview; the reentrancy flag is lowered afterwards even when the edit
fails. -/
theorem edit_roundtrip_no_echo
    (s : SyncSt) (C : String) (T : Nat) (b : Bool)
    (hep : s.editPending = false) (ht : s.timer = none)
    (hpushed : s.pushes.getLast? = some C) :
    (handleEditMessage true C b T s).editPending = false
    ∧ (b = true → (handleEditMessage true C b T s).doc = C)
    ∧ (handleEditMessage true C b T s).pushes = s.pushes
    ∧ (handleEditMessage true C b T s).timer = none := by
  cases b <;>
    simp [handleEditMessage, onDidChangeTextDocument, fireDebounce, hep, ht]

/-- Concrete instance of C3: pushing "C" then receiving edit "C" focused,
for both a succeeding and a failing host edit. -/
theorem edit_roundtrip_no_echo_wit :
    ((⟨"old", none, ["C"], false⟩ : SyncSt).editPending = false
      ∧ (⟨"old", none, ["C"], false⟩ : SyncSt).timer = none
      ∧ (⟨"old", none, ["C"], false⟩ : SyncSt).pushes.getLast? = some "C")
    ∧ ((handleEditMessage true "C" true 500 ⟨"old", none, ["C"], false⟩).editPending = false
        ∧ (true = true → (handleEditMessage true "C" true 500
              ⟨"old", none, ["C"], false⟩).doc = "C")
        ∧ (handleEditMessage true "C" true 500 ⟨"old", none, ["C"], false⟩).pushes
            = (⟨"old", none, ["C"], false⟩ : SyncSt).pushes
        ∧ (handleEditMessage true "C" true 500 ⟨"old", none, ["C"], false⟩).timer = none)
    ∧ (handleEditMessage true "C" false 500 ⟨"old", none, ["C"], false⟩).editPending
        = false := by
  refine ⟨⟨rfl, rfl, by decide⟩, ?_, ?_⟩
  · exact edit_roundtrip_no_echo ⟨"old", none, ["C"], false⟩ "C" 500 true rfl rfl (by decide)
  · exact (edit_roundtrip_no_echo ⟨"old", none, ["C"], false⟩ "C" 500 false rfl rfl
      (by decide)).1

/-! ### PanelLifecycle: delayed disposal on document close

Embedding of EditorPanel.setupDocumentCloseHandler from src/unnamed/part_000
lines 306-358: closing the bound document schedules disposal after the
configured delay, reopening it first cancels the timer, and the timeout
callback re-checks at fire time whether the document is open again and
whether the panel is visible before disposing. -/

/-- The state touched by the close handler: the pending disposal timer as an
absolute fire time, the file names of the documents the host currently has
open, the visibility of the webview panel, and whether this session has been
disposed. -/
structure CloseSt where
  disposalTimer : Option Nat
  openDocs : List String
  panelVisible : Bool
  disposed : Bool
deriving Repr, DecidableEq

/-- Host events seen by the close handler: a document close, a document open
(each carrying its time and file name), and a plain passage of time. -/
inductive CloseEv where
  | docClosed (t : Nat) (fileName : String)
  | docOpened (t : Nat) (fileName : String)
  | tick (t : Nat)
deriving Repr, DecidableEq

/-- The body of the disposal setTimeout callback, part_000 lines 322-337:
re-check whether the document has been reopened and whether the panel is
still visible; dispose only when neither holds. -/
def disposalCheck (fsPath : String) (s : CloseSt) : CloseSt :=
  let isDocumentOpen := s.openDocs.contains fsPath
  let isPanelVisible := s.panelVisible
  if !isDocumentOpen && !isPanelVisible then
    { s with disposed := true, disposalTimer := none }
  else { s with disposalTimer := none }

/-- Run the disposal timeout callback when its fire time has been reached. -/
def fireDisposalIfDue (fsPath : String) (t : Nat) (s : CloseSt) : CloseSt :=
  match s.disposalTimer with
  | some ft => if ft ≤ t then disposalCheck fsPath s else s
  | none => s

/-- One step of the close-handler state machine.  A disposed session has had
its subscriptions drained, so events no longer reach its handlers; otherwise
a due timer fires first, the host updates its open-document list, and then
the matching handler runs: a close of the bound document clears any existing
timeout and schedules disposal delayMs from now, an open of the bound
document cancels a pending timeout. -/
def closeStep (fsPath : String) (delayMs : Nat) (s : CloseSt) (e : CloseEv) : CloseSt :=
  if s.disposed then s
  else
    match e with
    | .docClosed t f =>
      let s1 := fireDisposalIfDue fsPath t s
      let s2 := { s1 with openDocs := s1.openDocs.filter (fun d => d ≠ f) }
      if f = fsPath then { s2 with disposalTimer := some (t + delayMs) } else s2
    | .docOpened t f =>
      let s1 := fireDisposalIfDue fsPath t s
      let s2 := { s1 with openDocs := s1.openDocs ++ [f] }
      if f = fsPath ∧ s2.disposalTimer.isSome then { s2 with disposalTimer := none }
      else s2
    | .tick t => fireDisposalIfDue fsPath t s

/-- Deliver a list of close-handler events in order. -/
def runClose (fsPath : String) (delayMs : Nat) (evs : List CloseEv) (s : CloseSt) : CloseSt :=
  evs.foldl (closeStep fsPath delayMs) s

/-- C4: when the bound document is closed and then reopened before the
disposal delay elapses, the pending disposal timer is cancelled, the session
is not disposed, and no later passage of time disposes it. -/
theorem close_reopen_cancels_disposal
    (fsPath : String) (delayMs t1 t2 : Nat) (s : CloseSt)
    (hd : s.disposed = false) (ht : s.disposalTimer = none)
    (h12 : t1 ≤ t2) (hwin : t2 < t1 + delayMs) :
    ((runClose fsPath delayMs [CloseEv.docClosed t1 fsPath, CloseEv.docOpened t2 fsPath] s).disposed
        = false)
    ∧ (runClose fsPath delayMs [CloseEv.docClosed t1 fsPath, CloseEv.docOpened t2 fsPath] s).disposalTimer
        = none
    ∧ ∀ T : Nat,
        (closeStep fsPath delayMs
          (runClose fsPath delayMs [CloseEv.docClosed t1 fsPath, CloseEv.docOpened t2 fsPath] s)
          (CloseEv.tick T)).disposed = false := by
  obtain ⟨dt, od, pv, dd⟩ := s
  simp only at hd ht
  subst hd; subst ht
  have hnotdue : ¬ (t1 + delayMs ≤ t2) := by omega
  have hrun : runClose fsPath delayMs
      [CloseEv.docClosed t1 fsPath, CloseEv.docOpened t2 fsPath]
      ⟨none, od, pv, false⟩
      = ⟨none, od.filter (fun d => d ≠ fsPath) ++ [fsPath], pv, false⟩ := by
    simp [runClose, closeStep, fireDisposalIfDue, hnotdue]
  refine ⟨by rw [hrun], by rw [hrun], ?_⟩
  intro T
  rw [hrun]
  simp [closeStep, fireDisposalIfDue]

/-- Concrete instance of C4: close at 0, reopen at 5000, delay 10000 ms. -/
theorem close_reopen_cancels_disposal_wit :
    ((⟨none, ["/ws/doc.md"], false, false⟩ : CloseSt).disposed = false
      ∧ (⟨none, ["/ws/doc.md"], false, false⟩ : CloseSt).disposalTimer = none
      ∧ (0 : Nat) ≤ 5000 ∧ (5000 : Nat) < 0 + 10000)
    ∧ (((runClose "/ws/doc.md" 10000
          [CloseEv.docClosed 0 "/ws/doc.md", CloseEv.docOpened 5000 "/ws/doc.md"]
          ⟨none, ["/ws/doc.md"], false, false⟩).disposed = false)
        ∧ (runClose "/ws/doc.md" 10000
            [CloseEv.docClosed 0 "/ws/doc.md", CloseEv.docOpened 5000 "/ws/doc.md"]
            ⟨none, ["/ws/doc.md"], false, false⟩).disposalTimer = none
        ∧ ∀ T : Nat,
            (closeStep "/ws/doc.md" 10000
              (runClose "/ws/doc.md" 10000
                [CloseEv.docClosed 0 "/ws/doc.md", CloseEv.docOpened 5000 "/ws/doc.md"]
                ⟨none, ["/ws/doc.md"], false, false⟩)
              (CloseEv.tick T)).disposed = false) := by
  exact ⟨⟨rfl, rfl, by decide, by decide⟩,
    close_reopen_cancels_disposal "/ws/doc.md" 10000 0 5000
      ⟨none, ["/ws/doc.md"], false, false⟩ rfl rfl (by decide) (by decide)⟩

/-- No close-handler event changes the visibility flag, and a step on a
visible undisposed session leaves it undisposed. -/
theorem closeStep_visible_preserved (fsPath : String) (delayMs : Nat)
    (s : CloseSt) (e : CloseEv)
    (hv : s.panelVisible = true) (hd : s.disposed = false) :
    (closeStep fsPath delayMs s e).panelVisible = true
    ∧ (closeStep fsPath delayMs s e).disposed = false := by
  obtain ⟨dt, od, pv, dd⟩ := s
  simp only at hv hd
  subst hv; subst hd
  cases e <;> cases dt <;>
    simp [closeStep, fireDisposalIfDue, disposalCheck,
      apply_ite CloseSt.panelVisible, apply_ite CloseSt.disposed, ite_self]

/-- C5: when the disposal timer fires, disposal proceeds only when the
document is not open again and the panel is not visible; if either re-checked
condition holds the session stays undisposed; and along any event sequence a
session whose webview panel is visible is never disposed, even if its
document reports closed. -/
theorem disposal_recheck_at_fire (fsPath : String) (s : CloseSt) (t ft delayMs : Nat)
    (htimer : s.disposalTimer = some ft) (hdue : ft ≤ t) :
    ((s.openDocs.contains fsPath = true ∨ s.panelVisible = true) →
        (fireDisposalIfDue fsPath t s).disposed = s.disposed)
    ∧ ((s.openDocs.contains fsPath = false ∧ s.panelVisible = false) →
        (fireDisposalIfDue fsPath t s).disposed = true)
    ∧ ∀ (evs : List CloseEv) (s2 : CloseSt),
        s2.panelVisible = true → s2.disposed = false →
        (runClose fsPath delayMs evs s2).disposed = false := by
  refine ⟨?_, ?_, ?_⟩
  · intro h
    rcases h with h | h
    · have hmem : fsPath ∈ s.openDocs := by simpa using h
      simp [fireDisposalIfDue, disposalCheck, htimer, hdue, hmem]
    · simp [fireDisposalIfDue, disposalCheck, htimer, hdue, h]
  · rintro ⟨h1, h2⟩
    have hnmem : fsPath ∉ s.openDocs := by simpa using h1
    simp [fireDisposalIfDue, disposalCheck, htimer, hdue, hnmem, h2]
  · intro evs
    induction evs with
    | nil => intro s2 _ hd2; simpa [runClose] using hd2
    | cons e evs ih =>
      intro s2 hv2 hd2
      have hstep := closeStep_visible_preserved fsPath delayMs s2 e hv2 hd2
      have : runClose fsPath delayMs (e :: evs) s2
          = runClose fsPath delayMs evs (closeStep fsPath delayMs s2 e) := rfl
      rw [this]
      exact ih (closeStep fsPath delayMs s2 e) hstep.1 hstep.2

/-- Concrete instance of C5: a due timer does not dispose a visible panel or
one whose document is open again, disposes an invisible closed one, and a
visible session survives an event sequence containing a close and a long
tick. -/
theorem disposal_recheck_at_fire_wit :
    ((⟨some 10000, [], true, false⟩ : CloseSt).disposalTimer = some 10000
      ∧ (10000 : Nat) ≤ 10000)
    ∧ (((⟨some 10000, [], true, false⟩ : CloseSt).openDocs.contains "/ws/doc.md" = true
          ∨ (⟨some 10000, [], true, false⟩ : CloseSt).panelVisible = true) →
        (fireDisposalIfDue "/ws/doc.md" 10000 ⟨some 10000, [], true, false⟩).disposed
          = (⟨some 10000, [], true, false⟩ : CloseSt).disposed)
    ∧ (((⟨some 10000, [], true, false⟩ : CloseSt).openDocs.contains "/ws/doc.md" = false
          ∧ (⟨some 10000, [], true, false⟩ : CloseSt).panelVisible = false) →
        (fireDisposalIfDue "/ws/doc.md" 10000 ⟨some 10000, [], true, false⟩).disposed = true)
    ∧ (∀ (evs : List CloseEv) (s2 : CloseSt),
        s2.panelVisible = true → s2.disposed = false →
        (runClose "/ws/doc.md" 10000 evs s2).disposed = false)
    ∧ (fireDisposalIfDue "/ws/doc.md" 10000 ⟨some 10000, [], false, false⟩).disposed = true
    ∧ (runClose "/ws/doc.md" 10000
        [CloseEv.docClosed 0 "/ws/doc.md", CloseEv.tick 999999]
        ⟨none, ["/ws/doc.md"], true, false⟩).disposed = false := by
  have h := disposal_recheck_at_fire "/ws/doc.md" ⟨some 10000, [], true, false⟩
    10000 10000 10000 rfl (by decide)
  refine ⟨⟨rfl, by decide⟩, h.1, h.2.1, h.2.2, by decide, ?_⟩
  exact h.2.2 [CloseEv.docClosed 0 "/ws/doc.md", CloseEv.tick 999999]
    ⟨none, ["/ws/doc.md"], true, false⟩ rfl rfl

/-! ### PanelRegistry: EditorPanelMap

Embedding of EditorPanelMap.get / register / unregister /
createWithExistingPanel / createOrShow (identical in part_000 and
extension.ts).  The JavaScript Map keyed by uri string is an association
list with set-replaces semantics, an EditorPanel instance is a session
record carrying a fresh numeric identity and a disposed flag, and the host
is the pair of the optional active text editor document and the language the
host assigns to a document opened by uri. -/

/-- A host text document: its uri string and language id. -/
structure DocInfo where
  uri : String
  languageId : String
deriving Repr, DecidableEq

/-- One EditorPanel instance: a process-unique numeric identity, the uri
key it was registered under, and whether it has been disposed. -/
structure RegSession where
  sid : Nat
  key : String
  disposed : Bool
deriving Repr, DecidableEq

/-- The registry state: the EditorPanelMap panels map, every session ever
constructed, the next fresh identity, the reveal calls made on existing
panels, and the error notifications shown. -/
structure RegState where
  panels : List (String × Nat)
  sessions : List RegSession
  nextId : Nat
  reveals : List Nat
  errors : List String
deriving Repr, DecidableEq

/-- EditorPanelMap.get: first binding for the key. -/
def panelsGet (st : RegState) (key : String) : Option Nat :=
  (st.panels.find? (fun p => p.1 == key)).map Prod.snd

/-- EditorPanelMap.register: Map.set replaces any binding for the key. -/
def panelsSet (st : RegState) (key : String) (sid : Nat) : RegState :=
  { st with panels := (key, sid) :: st.panels.filter (fun p => p.1 ≠ key) }

/-- EditorPanelMap.unregister: Map.delete. -/
def panelsDelete (st : RegState) (key : String) : RegState :=
  { st with panels := st.panels.filter (fun p => p.1 ≠ key) }

/-- EditorPanel.dispose as seen by the registry: unregister the session key
from the map and mark the instance disposed. -/
def disposeSessionR (st : RegState) (sid : Nat) : RegState :=
  let st1 :=
    match st.sessions.find? (fun s => s.sid == sid) with
    | some sess => panelsDelete st sess.key
    | none => st
  { st1 with
      sessions := st1.sessions.map
        (fun s => if s.sid = sid then { s with disposed := true } else s) }

/-- Construct a new EditorPanel for the key and register it. -/
def finishCreate (st : RegState) (key : String) : RegState :=
  let sid := st.nextId
  panelsSet
    { st with sessions := st.sessions ++ [⟨sid, key, false⟩], nextId := sid + 1 }
    key sid

/-- EditorPanelMap.createWithExistingPanel: any existing panel for the
document uri is disposed first, then a new panel is constructed and
registered under the uri. -/
def createWithExistingPanel (st : RegState) (docUri : String) : RegState :=
  match panelsGet st docUri with
  | some sid => finishCreate (disposeSessionR st sid) docUri
  | none => finishCreate st docUri

/-- The host context of a createOrShow call: the document of the active text
editor, if any, and the language id the host reports for a document opened
by uri. -/
structure Host where
  activeEditorDoc : Option DocInfo
  langOf : String → String

/-- The tail of EditorPanelMap.createOrShow after the reveal check: abort
with a notification when neither an active editor nor a uri is available;
with a uri, open the document by uri (no language check) and create; without
one, take the active editor document, abort with a notification unless its
language is markdown, otherwise create. -/
def createOrShowNew (host : Host) (uri : Option String) (st : RegState) : RegState :=
  if host.activeEditorDoc.isNone ∧ uri.isNone then
    { st with errors := st.errors ++ ["Did not open markdown file!"] }
  else
    match uri with
    | some u => finishCreate st (DocInfo.mk u (host.langOf u)).uri
    | none =>
      match host.activeEditorDoc with
      | some d =>
        if d.languageId ≠ "markdown" then
          { st with errors := st.errors
              ++ ["Current file language is not markdown, got " ++ d.languageId] }
        else finishCreate st d.uri
      | none => { st with errors := st.errors ++ ["Cannot find markdown file!"] }

/-- EditorPanelMap.createOrShow: only when a uri argument is present is the
map consulted, revealing an existing panel for that uri instead of creating
one; in every other case control falls through to the create path. -/
def createOrShow (host : Host) (uri : Option String) (st : RegState) : RegState :=
  match uri with
  | some u =>
    match panelsGet st u with
    | some sid => { st with reveals := st.reveals ++ [sid] }
    | none => createOrShowNew host (some u) st
  | none => createOrShowNew host none st

/-- The undisposed sessions bound to a key. -/
def liveSessions (st : RegState) (key : String) : List RegSession :=
  st.sessions.filter (fun s => s.key == key && s.disposed == false)

/-- C1 counterexample: invoking the open command twice with no uri while a
markdown document is the active editor creates and registers a second live
session for the same location key without revealing or disposing the first,
so two live sessions for the key coexist. -/
theorem createOrShow_duplicate_session_cex :
    (liveSessions
        (createOrShow ⟨some ⟨"file:///a.md", "markdown"⟩, fun _ => "markdown"⟩ none
          (createOrShow ⟨some ⟨"file:///a.md", "markdown"⟩, fun _ => "markdown"⟩ none
            ⟨[], [], 0, [], []⟩))
        "file:///a.md").length = 2
    ∧ (createOrShow ⟨some ⟨"file:///a.md", "markdown"⟩, fun _ => "markdown"⟩ none
        (createOrShow ⟨some ⟨"file:///a.md", "markdown"⟩, fun _ => "markdown"⟩ none
          ⟨[], [], 0, [], []⟩)).reveals = [] := by
  constructor <;> rfl

/-- Sessions are unchanged by disposeSessionR except for the disposed mark. -/
theorem disposeSessionR_sessions (st : RegState) (sid : Nat) :
    (disposeSessionR st sid).sessions
      = st.sessions.map (fun s => if s.sid = sid then { s with disposed := true } else s)
    ∧ (disposeSessionR st sid).nextId = st.nextId := by
  unfold disposeSessionR
  cases hf : st.sessions.find? (fun s => s.sid == sid) <;> simp [panelsDelete]

/-- C1 amended: for open requests that carry a uri, a second request for a
registered key reveals the existing session and creates nothing; custom
editor resolution disposes any existing session for the key before
registering the fresh one; but (see the counterexample) an open request
without a uri neither reveals nor disposes an existing session for the
active document. -/
theorem registry_reveal_and_dispose_amended :
    (∀ (host : Host) (u : String) (st : RegState) (sid : Nat),
        panelsGet st u = some sid →
        createOrShow host (some u) st = { st with reveals := st.reveals ++ [sid] })
    ∧ (∀ (st : RegState) (u : String) (sid : Nat),
        panelsGet st u = some sid → sid < st.nextId →
        (∀ s ∈ (createWithExistingPanel st u).sessions, s.sid = sid → s.disposed = true)
          ∧ panelsGet (createWithExistingPanel st u) u = some st.nextId) := by
  refine ⟨?_, ?_⟩
  · intro host u st sid h
    simp [createOrShow, h]
  · intro st u sid h hlt
    obtain ⟨hsess, hnext⟩ := disposeSessionR_sessions st sid
    constructor
    · intro s hs hsid
      have hform : (createWithExistingPanel st u).sessions
          = (disposeSessionR st sid).sessions
              ++ [⟨(disposeSessionR st sid).nextId, u, false⟩] := by
        simp [createWithExistingPanel, h, finishCreate, panelsSet]
      rw [hform, hsess, hnext] at hs
      rcases List.mem_append.mp hs with hmem | hmem
      · rcases List.mem_map.mp hmem with ⟨x, hx, hxe⟩
        by_cases hxs : x.sid = sid
        · rw [← hxe]; simp [hxs]
        · rw [← hxe] at hsid; simp [hxs] at hsid
      · simp at hmem
        rw [hmem] at hsid
        simp at hsid
        omega
    · have hform2 : createWithExistingPanel st u = finishCreate (disposeSessionR st sid) u := by
        simp [createWithExistingPanel, h]
      rw [hform2]
      simp [panelsGet, finishCreate, panelsSet, hnext, List.find?_cons_of_pos]

/-- Concrete instance of the amended C1: with session 0 registered for key
"k", a uri open reveals it, and custom editor resolution disposes it and
registers session 1. -/
theorem registry_reveal_and_dispose_amended_wit :
    (panelsGet ⟨[("k", 0)], [⟨0, "k", false⟩], 1, [], []⟩ "k" = some 0 ∧ (0 : Nat) < 1)
    ∧ createOrShow ⟨none, fun _ => "markdown"⟩ (some "k")
        ⟨[("k", 0)], [⟨0, "k", false⟩], 1, [], []⟩
        = { (⟨[("k", 0)], [⟨0, "k", false⟩], 1, [], []⟩ : RegState) with reveals := [] ++ [0] }
    ∧ (∀ s ∈ (createWithExistingPanel ⟨[("k", 0)], [⟨0, "k", false⟩], 1, [], []⟩ "k").sessions,
          s.sid = 0 → s.disposed = true)
    ∧ panelsGet (createWithExistingPanel ⟨[("k", 0)], [⟨0, "k", false⟩], 1, [], []⟩ "k") "k"
        = some 1 := by
  have h2 := registry_reveal_and_dispose_amended.2
    ⟨[("k", 0)], [⟨0, "k", false⟩], 1, [], []⟩ "k" 0 rfl (by decide)
  exact ⟨⟨rfl, by decide⟩,
    registry_reveal_and_dispose_amended.1 ⟨none, fun _ => "markdown"⟩ "k"
      ⟨[("k", 0)], [⟨0, "k", false⟩], 1, [], []⟩ 0 rfl,
    h2.1, h2.2⟩

/-- C9 counterexample: an open request carrying the uri of a document whose
host language is not markdown is not aborted: a session is created and
registered and no notification is shown. -/
theorem createOrShow_uri_skips_validation_cex :
    (createOrShow ⟨none, fun _ => "plaintext"⟩ (some "file:///x.txt")
        ⟨[], [], 0, [], []⟩).sessions = [⟨0, "file:///x.txt", false⟩]
    ∧ (createOrShow ⟨none, fun _ => "plaintext"⟩ (some "file:///x.txt")
        ⟨[], [], 0, [], []⟩).errors = [] := by
  constructor <;> rfl

/-- C9 amended: an open request with no uri and no active editor, and a
command-mode request whose active document is not markdown, are aborted with
a notification and create no session; an open request that carries a uri is
not validated for file type and always creates and registers a session. -/
theorem open_request_validation_amended :
    (∀ (lang : String → String) (st : RegState),
        createOrShow ⟨none, lang⟩ none st
          = { st with errors := st.errors ++ ["Did not open markdown file!"] })
    ∧ (∀ (d : DocInfo) (lang : String → String) (st : RegState),
        d.languageId ≠ "markdown" →
        createOrShow ⟨some d, lang⟩ none st
          = { st with errors := st.errors
                ++ ["Current file language is not markdown, got " ++ d.languageId] })
    ∧ (∀ (host : Host) (u : String) (st : RegState),
        panelsGet st u = none →
        (createOrShow host (some u) st).sessions = st.sessions ++ [⟨st.nextId, u, false⟩]
          ∧ (createOrShow host (some u) st).errors = st.errors) := by
  refine ⟨?_, ?_, ?_⟩
  · intro lang st
    simp [createOrShow, createOrShowNew]
  · intro d lang st hne
    simp [createOrShow, createOrShowNew, hne]
  · intro host u st h
    constructor <;> simp [createOrShow, h, createOrShowNew, finishCreate, panelsSet]

/-- Concrete instance of the amended C9: both abort paths show their
notification and create nothing, and a uri request creates a session. -/
theorem open_request_validation_amended_wit :
    ((⟨"file:///x.txt", "plaintext"⟩ : DocInfo).languageId ≠ "markdown"
      ∧ panelsGet ⟨[], [], 0, [], []⟩ "file:///y.md" = none)
    ∧ createOrShow ⟨none, fun _ => "markdown"⟩ none ⟨[], [], 0, [], []⟩
        = { (⟨[], [], 0, [], []⟩ : RegState) with
              errors := [] ++ ["Did not open markdown file!"] }
    ∧ createOrShow ⟨some ⟨"file:///x.txt", "plaintext"⟩, fun _ => "markdown"⟩ none
        ⟨[], [], 0, [], []⟩
        = { (⟨[], [], 0, [], []⟩ : RegState) with
              errors := [] ++ ["Current file language is not markdown, got plaintext"] }
    ∧ (createOrShow ⟨none, fun _ => "markdown"⟩ (some "file:///y.md")
          ⟨[], [], 0, [], []⟩).sessions = [] ++ [⟨0, "file:///y.md", false⟩] := by
  refine ⟨⟨by decide, rfl⟩, ?_, ?_, ?_⟩
  · exact open_request_validation_amended.1 (fun _ => "markdown") ⟨[], [], 0, [], []⟩
  · exact open_request_validation_amended.2.1 ⟨"file:///x.txt", "plaintext"⟩
      (fun _ => "markdown") ⟨[], [], 0, [], []⟩ (by decide)
  · exact (open_request_validation_amended.2.2 ⟨none, fun _ => "markdown"⟩ "file:///y.md"
      ⟨[], [], 0, [], []⟩ rfl).1

/-! ### Disposal guard: EditorPanel.dispose with the _isDisposed flag

Embedding of EditorPanel.dispose from src/src/extension.ts lines 573-612
(the revision carrying the _keepAlive / _documentCloseTriggered pre-check
and the _isDisposed guard) together with the document close/reopen handlers
of that revision.  Event subscriptions live in the _disposables array, which
dispose drains; a handler whose subscription has been drained is no longer
invoked by the host. -/

/-- The session fields read and written by dispose and the close handlers of
the extension.ts revision. -/
structure Session7 where
  isDisposed : Bool
  keepAlive : Bool
  documentCloseTriggered : Bool
  registered : Bool
  panelDisposed : Bool
  subscriptionsActive : Bool
deriving Repr, DecidableEq

/-- EditorPanel.dispose: the keepAlive pre-check swallows a dispose call
triggered by a document close; the _isDisposed guard makes a second call a
no-op; otherwise the session is marked disposed, unregistered, its webview
panel disposed and its subscriptions drained. -/
def dispose7 (s : Session7) : Session7 :=
  if s.keepAlive && s.documentCloseTriggered then
    { s with documentCloseTriggered := false }
  else if s.isDisposed then s
  else
    { s with isDisposed := true, registered := false, panelDisposed := true,
             subscriptionsActive := false }

/-- Host events whose handlers touch the dispose state in that revision. -/
inductive Session7Ev where
  | docClosedMatching
  | reopenFailed
  | panelViewStateChange
deriving Repr, DecidableEq

/-- The handler bodies: a matching document close records that a close
triggered the pending dispose and attempts a reopen; a failed reopen drops
keepAlive and disposes; a view-state change only logs. -/
def handle7 (e : Session7Ev) (s : Session7) : Session7 :=
  match e with
  | .docClosedMatching => { s with documentCloseTriggered := true }
  | .reopenFailed => dispose7 { s with keepAlive := false }
  | .panelViewStateChange => s

/-- Host dispatch: a handler runs only while its subscription is alive. -/
def deliver7 (e : Session7Ev) (s : Session7) : Session7 :=
  if s.subscriptionsActive then handle7 e s else s

/-- States reachable by the handlers: once disposed, the subscriptions have
been drained and the keepAlive pre-check cannot fire. -/
def Inv7 (s : Session7) : Prop :=
  s.isDisposed = true →
    s.subscriptionsActive = false
      ∧ (s.keepAlive = false ∨ s.documentCloseTriggered = false)

instance (s : Session7) : Decidable (Inv7 s) := by
  unfold Inv7; infer_instance

/-- dispose7 preserves the reachability invariant. -/
theorem dispose7_preserves_Inv7 (s : Session7) (h : Inv7 s) : Inv7 (dispose7 s) := by
  obtain ⟨d, ka, ct, r, p, sub⟩ := s
  cases d <;> cases ka <;> cases ct <;> cases sub <;>
    simp_all [Inv7, dispose7]

/-- deliver7 preserves the reachability invariant. -/
theorem deliver7_preserves_Inv7 (e : Session7Ev) (s : Session7) (h : Inv7 s) :
    Inv7 (deliver7 e s) := by
  obtain ⟨d, ka, ct, r, p, sub⟩ := s
  cases e <;> cases d <;> cases ka <;> cases ct <;> cases sub <;>
    simp_all [Inv7, deliver7, handle7, dispose7]

/-- C7: on a reachable disposed session a further dispose call is a no-op
(the guard returns before any effect), and no delivered event changes a
disposed session at all: Disposed is terminal, and in particular nothing
re-registers the session. -/
theorem dispose_idempotent_terminal (s : Session7) (e : Session7Ev)
    (hInv : Inv7 s) (hd : s.isDisposed = true) :
    dispose7 s = s ∧ deliver7 e s = s := by
  obtain ⟨hsub, hkc⟩ := hInv hd
  constructor
  · rcases hkc with hk | hc
    · simp [dispose7, hk, hd]
    · simp [dispose7, hc, hd]
  · simp [deliver7, hsub]

/-- Concrete instance of C7: the fully disposed session absorbs both another
dispose call and every event. -/
theorem dispose_idempotent_terminal_wit :
    (Inv7 ⟨true, false, false, false, true, false⟩
      ∧ (⟨true, false, false, false, true, false⟩ : Session7).isDisposed = true)
    ∧ dispose7 ⟨true, false, false, false, true, false⟩
        = ⟨true, false, false, false, true, false⟩
    ∧ deliver7 Session7Ev.docClosedMatching ⟨true, false, false, false, true, false⟩
        = ⟨true, false, false, false, true, false⟩ := by
  have h := dispose_idempotent_terminal ⟨true, false, false, false, true, false⟩
    Session7Ev.docClosedMatching (by decide) rfl
  exact ⟨⟨by decide, rfl⟩, h.1, h.2⟩

/-! ### Save handling

Embedding of the save message case of part_000 (lines 487-492) together
with EditorPanel.syncToEditor (lines 421-432), and of the save case of the
first extension.ts revision (lines 468-473) together with its local
syncToEditor closure (lines 413-428), which falls back to a direct file
write when the session has no document handle.  In part_000 the sync step
awaits Webview.postMessage of a getContent request; that host API resolves
to a delivery boolean, not to an answer from the widget, so the awaited
value is true when the message was delivered and false otherwise, and the
JavaScript coercion applied to it yields the string "true" or the empty
string.  Dereferencing the save method of an absent document handle is a
thrown TypeError, modelled as Except.error. -/

/-- Session state for the part_000 save path: the bound document text,
whether a document handle is present, whether the document has been saved,
and the trace of host actions performed, in order. -/
structure SaveSt where
  docText : String
  hasDocument : Bool
  docSaved : Bool
  actions : List String
deriving Repr, DecidableEq

/-- The JavaScript coercion the source applies to the awaited postMessage
result: String applied to the or-default of the delivery boolean, which is
the string "true" when the message was delivered and the empty string
otherwise. -/
def stringOfDelivery (delivered : Bool) : String :=
  if delivered then "true" else ""

/-- EditorPanel.syncToEditor, part_000 lines 421-432: when a document handle
is present, await postMessage of a getContent request — whose value is the
delivery boolean of the host API, not webview content — and replace the
whole document with the coercion of that value; no focus check is made. -/
def syncToEditor (delivered : Bool) (s : SaveSt) : SaveSt :=
  if s.hasDocument then
    { s with docText := stringOfDelivery delivered, actions := s.actions ++ ["applyEdit"] }
  else s

/-- The save case of the part_000 message handler: syncToEditor, then
document save, then the dirty-indicator refresh; the document handle is
dereferenced unconditionally for the save call. -/
def handleSaveMessage (panelActive : Bool) (delivered : Bool)
    (s : SaveSt) : Except String SaveSt :=
  let s1 := syncToEditor delivered s
  if s1.hasDocument then
    Except.ok { s1 with docSaved := true,
                        actions := s1.actions ++ ["documentSave"] ++ ["updateEditTitle"] }
  else Except.error "TypeError: this._document is undefined"

/-- C6: the save handler does run the sync step, the document save and the
title refresh in order with no focus guard, but the sync step replaces the
document with the stringified postMessage delivery boolean, never with the
webview content: with a document reading "old", a webview buffer "new" and a
delivered getContent message, the saved document text is "true" (and the
empty string when delivery fails), regardless of focus, so the document
after save does not equal the latest webview content. -/
theorem save_replaces_document_with_delivery_string :
    handleSaveMessage false true ⟨"old", true, false, []⟩
      = Except.ok ⟨"true", true, true, ["applyEdit", "documentSave", "updateEditTitle"]⟩
    ∧ handleSaveMessage true true ⟨"old", true, false, []⟩
      = handleSaveMessage false true ⟨"old", true, false, []⟩
    ∧ handleSaveMessage false false ⟨"old", true, false, []⟩
      = Except.ok ⟨"", true, true, ["applyEdit", "documentSave", "updateEditTitle"]⟩
    ∧ ("true" : String) ≠ "new" := by
  refine ⟨rfl, rfl, rfl, by decide⟩

/-- Session state for the extension.ts save path: whether a document handle
and a uri are present, the document text, the content written to the file by
the fallback, whether document save ran, and the notifications shown. -/
structure SaveLoc where
  hasDocument : Bool
  hasUri : Bool
  docText : String
  fileWritten : Option String
  docSaved : Bool
  errors : List String
deriving Repr, DecidableEq

/-- The local syncToEditor closure of the extension.ts message handler:
replace the document text when a handle is present, otherwise fall back to
writing the message content straight to the file at the uri, otherwise show
a notification. -/
def syncToEditorLocal (content : String) (s : SaveLoc) : SaveLoc :=
  if s.hasDocument then { s with docText := content }
  else if s.hasUri then { s with fileWritten := some content }
  else { s with errors := s.errors ++ ["Cannot find original file to save!"] }

/-- The save case of the extension.ts message handler: sync, then call the
save method on the document handle unconditionally. -/
def handleSaveLocal (content : String) (s : SaveLoc) : Except String SaveLoc :=
  let s1 := syncToEditorLocal content s
  if s1.hasDocument then Except.ok { s1 with docSaved := true }
  else Except.error "TypeError: this._document is undefined"

/-- C10: for a session opened purely by location reference (no document
handle but a uri), the sync path tolerates the absent handle by writing the
file directly, yet the save handler then dereferences the absent handle
unconditionally, so every save request fails instead of completing through
the file-write fallback. -/
theorem save_without_document_fails (s : SaveLoc) (c : String)
    (hnd : s.hasDocument = false) (hu : s.hasUri = true) :
    (syncToEditorLocal c s).fileWritten = some c
    ∧ handleSaveLocal c s = Except.error "TypeError: this._document is undefined" := by
  obtain ⟨hd, hur, d, fw, sv, er⟩ := s
  simp only at hnd hu
  subst hnd; subst hu
  exact ⟨by simp [syncToEditorLocal], by simp [handleSaveLocal, syncToEditorLocal]⟩

/-- Concrete instance of C10: a location-only session writes the file in the
sync step and still fails the save request. -/
theorem save_without_document_fails_wit :
    ((⟨false, true, "", none, false, []⟩ : SaveLoc).hasDocument = false
      ∧ (⟨false, true, "", none, false, []⟩ : SaveLoc).hasUri = true)
    ∧ (syncToEditorLocal "body" ⟨false, true, "", none, false, []⟩).fileWritten
        = some "body"
    ∧ handleSaveLocal "body" ⟨false, true, "", none, false, []⟩
        = Except.error "TypeError: this._document is undefined" := by
  have h := save_without_document_fails ⟨false, true, "", none, false, []⟩ "body" rfl rfl
  exact ⟨⟨rfl, rfl⟩, h.1, h.2⟩
